import Mathlib

/-!
Verification of the ChewyTask scheduling and dispatch engine.

Shallow embedding of `chewy_task/schedules.py`, `chewy_task/task.py`,
`chewy_task/executor.py`, `chewy_task/scheduler.py` and `chewy_task/app.py`.
Time values (Python `time.time()` floats) are modelled as rationals.
Whether the underlying worker pool accepts a given submission is modelled
by an explicit oracle (`ok : Bool`, or `acc : SubmitCall → Bool` inside the
tick loop) so that submission failures and their handling are observable.
-/

namespace Chewy

/-- Embeds `schedules.IntervalSchedule`: holds the configured interval (seconds). -/
structure IntervalSchedule where
  interval : ℚ
  deriving Repr, DecidableEq

/-- Embeds `IntervalSchedule.__init__`: raises `ValueError` when `interval <= 0`,
otherwise stores the interval. Modelled as a fallible constructor. -/
def IntervalSchedule.create (interval : ℚ) : Except String IntervalSchedule :=
  if interval ≤ 0 then
    .error "Interval must be greater than 0"
  else
    .ok ⟨interval⟩

/-- Embeds `task.Task`: a named callable unit of work. The function body is opaque;
only the identity matters for scheduling semantics. -/
structure Task where
  name : String
  deriving Repr, DecidableEq

/-- A call handed to `executor.submit`: the task whose `run` is submitted,
with positional and keyword arguments (argument values are opaque). -/
structure SubmitCall where
  fn : Task
  args : List String
  kwargs : List (String × String)
  deriving Repr, DecidableEq

/-- A `concurrent.futures.Future` returned by a submission, identified by
the call it was created for. -/
structure Future where
  call : SubmitCall
  deriving Repr, DecidableEq

/-- Embeds `task.TaskEntry`: binds a Task to a schedule and fixed arguments, and
tracks `last_run_at` (None = never dispatched). -/
structure TaskEntry where
  id : String
  task : Task
  schedule : IntervalSchedule
  args : List String
  kwargs : List (String × String)
  last_run_at : Option ℚ
  deriving Repr, DecidableEq

/-- The `SubmitCall` issued when this entry is dispatched
(`executor.submit(entry.task.run, *entry.args, **entry.kwargs)`). -/
def TaskEntry.call (e : TaskEntry) : SubmitCall :=
  ⟨e.task, e.args, e.kwargs⟩

/-- Embeds `TaskEntry.is_due`: first run is due immediately reporting the nominal
interval; otherwise `remaining = last_run_at + interval - now`, due when
`remaining <= 0` (reporting the interval), else not due reporting
`remaining`. The Python method reads `now = time.time()`; here `now` is a
parameter. -/
def TaskEntry.is_due (e : TaskEntry) (now : ℚ) : Bool × ℚ :=
  match e.last_run_at with
  | none => (true, e.schedule.interval)
  | some last =>
    let next_run := last + e.schedule.interval
    let remaining := next_run - now
    if remaining ≤ 0 then (true, e.schedule.interval)
    else (false, remaining)

/-- The state of an underlying `concurrent.futures` pool: the jobs it has
accepted, in submission order. -/
structure Pool where
  jobs : List SubmitCall
  deriving Repr, DecidableEq

/-- Embeds `executor.BaseExecutor`: backend kind (`True` = thread subclass,
`False` = process subclass, fixed by the factory), optional worker bound,
and the lazily created pool (`self._executor`, `None` until started). -/
structure BaseExecutor where
  threadMode : Bool
  max_workers : Option Nat
  pool : Option Pool
  deriving Repr, DecidableEq

/-- Embeds `BaseExecutor.start`: creates the underlying pool if not yet created;
at most once per instance. -/
def BaseExecutor.start (e : BaseExecutor) : BaseExecutor :=
  match e.pool with
  | none => { e with pool := some ⟨[]⟩ }
  | some _ => e

/-- Embeds `BaseExecutor.submit`: lazily starts the pool when `self._executor is
None`, then hands the call to the pool. `ok` is the oracle for whether the
pool-level `submit` succeeds (e.g. raises for a non-serializable payload on
a process pool); on failure the error is logged and re-raised, with the
(possibly freshly started) pool kept. Returns the post-state together with
the result. -/
def BaseExecutor.submit (e : BaseExecutor) (ok : Bool) (call : SubmitCall) :
    BaseExecutor × Except String Future :=
  let e1 := if e.pool.isNone then e.start else e
  match e1.pool with
  | some p =>
    if ok then ({ e1 with pool := some ⟨p.jobs ++ [call]⟩ }, .ok ⟨call⟩)
    else (e1, .error "Failed to submit task")
  | none => (e1, .error "NoneType object has no attribute submit")

/-- Embeds `BaseExecutor.shutdown`: if a pool exists, shut it down and clear the
reference (`self._executor = None` in the `finally` block); a no-op when no
pool exists. -/
def BaseExecutor.shutdown (e : BaseExecutor) (wait : Bool) : BaseExecutor :=
  match e.pool with
  | none => e
  | some _ => { e with pool := none }

/-- Embeds `executor.create_executor`: factory selecting the thread or process
subclass; the pool is not created yet. -/
def create_executor (threadMode : Bool) (max_workers : Option Nat) : BaseExecutor :=
  { threadMode := threadMode, max_workers := max_workers, pool := none }

/-- An item of the scheduler's instant queue: a `(task, args, kwargs)`
triple. -/
structure InstantItem where
  task : Task
  args : List String
  kwargs : List (String × String)
  deriving Repr, DecidableEq

/-- The `SubmitCall` issued when this queue item is drained. -/
def InstantItem.toCall (i : InstantItem) : SubmitCall :=
  ⟨i.task, i.args, i.kwargs⟩

/-- Embeds `scheduler.Scheduler`: the owned executor, the registry of scheduled
entries (a dict iterated in insertion order; modelled as a list), the
instant queue, and the running flag. -/
structure Scheduler where
  executor : BaseExecutor
  scheduled_entries : List TaskEntry
  instant_queue : List InstantItem
  running : Bool
  deriving Repr, DecidableEq

/-- Embeds `Scheduler.add_scheduled_task`: stores the entry in the registry. -/
def Scheduler.add_scheduled_task (s : Scheduler) (e : TaskEntry) : Scheduler :=
  { s with scheduled_entries := s.scheduled_entries ++ [e] }

/-- Embeds `Scheduler.submit_instant_task`: submits `task.run` with the given
arguments directly to the executor and returns the resulting future; the
instant queue and the running flag are not consulted or modified. -/
def Scheduler.submit_instant_task (s : Scheduler) (ok : Bool) (task : Task)
    (args : List String) (kwargs : List (String × String)) :
    Scheduler × Except String Future :=
  let r := s.executor.submit ok ⟨task, args, kwargs⟩
  ({ s with executor := r.1 }, r.2)

/-- Python `next_wake or 1.0`: `None` and `0.0` are falsy. -/
def pyOr (x : Option ℚ) (d : ℚ) : ℚ :=
  match x with
  | none => d
  | some v => if v = 0 then d else v

/-- The `if next_wake is None or remaining < next_wake` update inside the
tick loop. -/
def updateNextWake (nextWake : Option ℚ) (remaining : ℚ) : Option ℚ :=
  match nextWake with
  | none => some remaining
  | some nw => if remaining < nw then some remaining else some nw

/-- The scheduled-entry loop of `Scheduler.tick`: for each entry evaluate
`is_due`; when due, submit to the executor inside `try/except` (on success
set `last_run_at = now`, on failure log and continue), and in all cases
fold the remaining time into `next_wake`. Returns the executor state, the
folded `next_wake`, the updated entries and the submit calls attempted, in
order. -/
def tickScheduled (acc : SubmitCall → Bool) (now : ℚ) :
    BaseExecutor → Option ℚ → List TaskEntry →
      BaseExecutor × Option ℚ × List TaskEntry × List SubmitCall
  | ex, nextWake, [] => (ex, nextWake, [], [])
  | ex, nextWake, e :: rest =>
    let dr := e.is_due now
    let step : BaseExecutor × TaskEntry × List SubmitCall :=
      if dr.1 then
        let sr := ex.submit (acc e.call) e.call
        match sr.2 with
        | .ok _ => (sr.1, { e with last_run_at := some now }, [e.call])
        | .error _ => (sr.1, e, [e.call])
      else (ex, e, [])
    let nextWake1 := updateNextWake nextWake dr.2
    let r := tickScheduled acc now step.1 nextWake1 rest
    (r.1, r.2.1, step.2.1 :: r.2.2.1, step.2.2 ++ r.2.2.2)

/-- The instant-queue drain of `Scheduler.tick`: `get_nowait` each item in
FIFO order until the queue is empty; each submission failure is logged and
the item dropped. Returns the executor state and the submit calls
attempted, in order. -/
def drainInstant (acc : SubmitCall → Bool) :
    BaseExecutor → List InstantItem → BaseExecutor × List SubmitCall
  | ex, [] => (ex, [])
  | ex, item :: rest =>
    let sr := ex.submit (acc item.toCall) item.toCall
    let r := drainInstant acc sr.1 rest
    (r.1, item.toCall :: r.2)

/-- Result of one `Scheduler.tick`: the new scheduler state, the submit
calls issued to the executor in order, and the returned sleep duration. -/
structure TickResult where
  sched : Scheduler
  calls : List SubmitCall
  sleep : ℚ
  deriving Repr, DecidableEq

/-- Embeds `Scheduler.tick`: evaluate every scheduled entry (dispatching the due
ones), then drain the instant queue, then return
`min(next_wake or 1.0, 1.0)`. -/
def Scheduler.tick (s : Scheduler) (acc : SubmitCall → Bool) (now : ℚ) : TickResult :=
  let sc := tickScheduled acc now s.executor none s.scheduled_entries
  let dr := drainInstant acc sc.1 s.instant_queue
  { sched := { s with
      executor := dr.1
      scheduled_entries := sc.2.2.1
      instant_queue := [] }
    calls := sc.2.2.2 ++ dr.2
    sleep := min (pyOr sc.2.1 1) 1 }

/-- Embeds `app.ChewyTask`: worker bound, the (unenforced) task timeout, the
lazily created scheduler (`self._scheduler`), and the started flag. -/
structure ChewyTask where
  max_workers : Option Nat
  task_timeout : Option ℚ
  scheduler : Option Scheduler
  started : Bool
  deriving Repr, DecidableEq

/-- Embeds `ChewyTask._ensure_scheduler_initialized`: when no scheduler exists,
create the executor via the factory and a fresh scheduler owning it. -/
def ChewyTask.ensure_scheduler_initialized (a : ChewyTask) (threadMode : Bool) :
    ChewyTask :=
  match a.scheduler with
  | some _ => a
  | none =>
    { a with scheduler := some {
        executor := create_executor threadMode a.max_workers
        scheduled_entries := []
        instant_queue := []
        running := false } }

/-- Embeds `ChewyTask.submit_task`: ensure the scheduler exists, then forward to
`Scheduler.submit_instant_task`; the `Scheduler not initialized` branch is
kept from the source. -/
def ChewyTask.submit_task (a : ChewyTask) (ok : Bool) (task : Task)
    (args : List String) (kwargs : List (String × String)) :
    ChewyTask × Except String Future :=
  let a1 := a.ensure_scheduler_initialized true
  match a1.scheduler with
  | some s =>
    let r := s.submit_instant_task ok task args kwargs
    ({ a1 with scheduler := some r.1 }, r.2)
  | none => (a1, .error "Scheduler not initialized")

/-- A Task together with its `app` back-reference field (`Task.app`,
`None` when the task is not bound to an application). -/
structure BoundTask where
  task : Task
  app : Option ChewyTask

/-- Embeds `Task.delay`: raises `RuntimeError` when `self.app is None`, otherwise
forwards to `self.app.submit_task`. -/
def BoundTask.delay (t : BoundTask) (ok : Bool)
    (args : List String) (kwargs : List (String × String)) :
    Except String (ChewyTask × Future) :=
  match t.app with
  | none => .error "Task is not bound to any ChewyTask application"
  | some app =>
    let r := app.submit_task ok t.task args kwargs
    match r.2 with
    | .ok f => .ok (r.1, f)
    | .error msg => .error msg

/-! ## Basic lemmas about the executor -/

/-- The jobs currently accepted by the executor's pool (none ⇒ no jobs). -/
def poolJobs (e : BaseExecutor) : List SubmitCall :=
  match e.pool with
  | none => []
  | some p => p.jobs

/-- Characterization of `BaseExecutor.submit`: the pool always exists
afterwards (lazily started) holding the accepted job iff the backend
accepted it, and the result is the future or the backend error. -/
theorem BaseExecutor.submit_eq (e : BaseExecutor) (ok : Bool) (c : SubmitCall) :
    e.submit ok c =
      (if ok then { e with pool := some ⟨poolJobs e ++ [c]⟩ }
       else { e with pool := some ⟨poolJobs e⟩ },
       if ok then Except.ok ⟨c⟩ else Except.error "Failed to submit task") := by
  obtain ⟨tm, mw, pl⟩ := e
  cases pl with
  | none => cases ok <;> simp [BaseExecutor.submit, BaseExecutor.start, poolJobs]
  | some p => cases ok <;> simp [BaseExecutor.submit, BaseExecutor.start, poolJobs]

/-- After shutdown the pool reference is `None`. -/
theorem BaseExecutor.shutdown_pool (e : BaseExecutor) (w : Bool) :
    (e.shutdown w).pool = none := by
  cases h : e.pool <;> simp [BaseExecutor.shutdown, h]

/-! ## C1 -/

/-- A started executor that is then shut down. -/
def execC1 : BaseExecutor := ((create_executor true none).start).shutdown true

/-- A sample submission. -/
def callC1 : SubmitCall := ⟨⟨"t"⟩, [], []⟩

/-- C1 counterexample: on an executor whose `shutdown` was called, the pool
reference is indeed cleared, but a subsequent `submit` does **not** raise:
it succeeds, returning a future, and silently recreates a pool holding the
accepted work — contradicting the claim that the submission fails. -/
theorem C1_counterexample :
    execC1.pool = none ∧
    (execC1.submit true callC1).2 = .ok ⟨callC1⟩ ∧
    (execC1.submit true callC1).1.pool = some ⟨[callC1]⟩ :=
  ⟨rfl, rfl, rfl⟩

/-- C1 (amended): for every executor on which `shutdown` has been called,
the pool reference is cleared, and a subsequent `submit` whose backend
accepts the call silently starts a fresh pool and accepts the work,
returning a handle instead of raising. -/
theorem C1_amended (e : BaseExecutor) (w : Bool) (c : SubmitCall) :
    (e.shutdown w).pool = none ∧
    ((e.shutdown w).submit true c).2 = .ok ⟨c⟩ ∧
    ((e.shutdown w).submit true c).1.pool = some ⟨[c]⟩ := by
  refine ⟨BaseExecutor.shutdown_pool e w, ?_, ?_⟩ <;>
    rw [BaseExecutor.submit_eq] <;>
    simp [poolJobs, BaseExecutor.shutdown_pool e w]

/-! ## C2 -/

/-- A sample task. -/
def taskT : Task := ⟨"t"⟩

/-- A scheduler that is not running (fresh, `running = False`). -/
def schedC2 : Scheduler :=
  { executor := create_executor true none
    scheduled_entries := []
    instant_queue := []
    running := false }

/-- C2 counterexample: `submit_instant_task` on a scheduler that is not
running does not fail — it accepts the submission and returns the future,
contradicting the claim that it fails explicitly. -/
theorem C2_counterexample :
    schedC2.running = false ∧
    (schedC2.submit_instant_task true taskT [] []).2 = .ok ⟨⟨taskT, [], []⟩⟩ :=
  ⟨rfl, rfl⟩

/-- C2 (amended): `submit_instant_task` performs no running check: even
when the Scheduler is not running, it submits directly to the Executor
(lazily starting its pool) and returns the handle whenever the backend
accepts the call; it fails only when the backend submission itself
fails. -/
theorem C2_amended (s : Scheduler) (task : Task) (args : List String)
    (kwargs : List (String × String)) (h : s.running = false) :
    (s.submit_instant_task true task args kwargs).2 = .ok ⟨⟨task, args, kwargs⟩⟩ ∧
    ∀ ok : Bool, (s.submit_instant_task ok task args kwargs).2 =
      if ok then .ok ⟨⟨task, args, kwargs⟩⟩ else .error "Failed to submit task" := by
  refine ⟨?_, fun ok => ?_⟩ <;>
    simp [Scheduler.submit_instant_task, BaseExecutor.submit_eq]

/-- C2 witness: the amended statement instantiated on the concrete
non-running scheduler. -/
theorem C2_witness :
    (schedC2.submit_instant_task true taskT [] []).2 = .ok ⟨⟨taskT, [], []⟩⟩ :=
  (C2_amended schedC2 taskT [] [] rfl).1

/-! ## C3 -/

/-- C3: `is_due` implements exactly the specified schedule-policy contract:
never-dispatched entries are due with the nominal interval; otherwise with
`next = last + interval`, due with the interval when `now ≥ next`, and not
due with remaining `next - now` when `now < next`. -/
theorem C3_is_due_formula (e : TaskEntry) (now : ℚ)
    (hpos : 0 < e.schedule.interval) :
    (e.last_run_at = none → e.is_due now = (true, e.schedule.interval)) ∧
    ∀ last, e.last_run_at = some last →
      ((last + e.schedule.interval ≤ now →
          e.is_due now = (true, e.schedule.interval)) ∧
       (now < last + e.schedule.interval →
          e.is_due now = (false, last + e.schedule.interval - now))) := by
  refine ⟨fun h => ?_, fun last h => ⟨fun hle => ?_, fun hlt => ?_⟩⟩ <;>
    simp only [TaskEntry.is_due, h]
  · rw [if_pos (by linarith)]
  · rw [if_neg (by rw [not_le]; linarith)]

/-- An entry with interval 2 dispatched at time 0. -/
def entryC3 : TaskEntry :=
  { id := "e"
    task := taskT
    schedule := ⟨2⟩
    args := []
    kwargs := []
    last_run_at := some 0 }

/-- C3 witness: for interval 2 and last dispatch at 0, `is_due 1` is
`(false, 1)` and `is_due 2` is `(true, 2)`. -/
theorem C3_witness :
    entryC3.is_due 1 = (false, 1) ∧ entryC3.is_due 2 = (true, 2) := by
  have h1 := (C3_is_due_formula entryC3 1 (by norm_num [entryC3])).2 0 rfl
  have h2 := (C3_is_due_formula entryC3 2 (by norm_num [entryC3])).2 0 rfl
  constructor
  · rw [h1.2 (by norm_num [entryC3])]
    norm_num [entryC3]
  · rw [h2.1 (by norm_num [entryC3])]
    rfl

/-! ## C6 -/

/-- C6: constructing an `IntervalSchedule` with a non-positive interval
raises `ValueError`; every positive interval constructs successfully; and
dispatch-time evaluation (`is_due`) is pure arithmetic on any schedule
value — no interval-validity error is raised at dispatch time. -/
theorem C6_interval_validation :
    (∀ i : ℚ, i ≤ 0 →
      IntervalSchedule.create i = .error "Interval must be greater than 0") ∧
    (∀ i : ℚ, 0 < i → IntervalSchedule.create i = .ok ⟨i⟩) ∧
    (∀ (e : TaskEntry) (now : ℚ), e.is_due now =
      match e.last_run_at with
      | none => (true, e.schedule.interval)
      | some last =>
        if last + e.schedule.interval - now ≤ 0 then (true, e.schedule.interval)
        else (false, last + e.schedule.interval - now)) := by
  refine ⟨fun i hi => ?_, fun i hi => ?_, fun e now => ?_⟩
  · simp [IntervalSchedule.create, hi]
  · simp [IntervalSchedule.create, not_le.mpr hi]
  · cases h : e.last_run_at <;> simp [TaskEntry.is_due, h]

/-- C6 witness: `create (-1)` raises, `create 2` succeeds. -/
theorem C6_witness :
    IntervalSchedule.create (-1) = .error "Interval must be greater than 0" ∧
    IntervalSchedule.create 2 = .ok ⟨2⟩ :=
  ⟨C6_interval_validation.1 (-1) (by norm_num),
   C6_interval_validation.2.1 2 (by norm_num)⟩

/-! ## Lemmas about the tick loop -/

/-- The effect of one tick on a single registry entry: `last_run_at` is set
to `now` exactly when the entry is due and the executor accepted the
submission; otherwise the entry is unchanged. -/
def stepEntry (acc : SubmitCall → Bool) (now : ℚ) (e : TaskEntry) : TaskEntry :=
  if (e.is_due now).1 && acc e.call then { e with last_run_at := some now } else e

/-- The submit calls a tick issues for the registry: one per due entry, in
registry order. -/
def dueCalls (now : ℚ) (entries : List TaskEntry) : List SubmitCall :=
  (entries.filter (fun e => (e.is_due now).1)).map TaskEntry.call

theorem tickScheduled_entries (acc : SubmitCall → Bool) (now : ℚ)
    (entries : List TaskEntry) :
    ∀ (ex : BaseExecutor) (nw : Option ℚ),
      (tickScheduled acc now ex nw entries).2.2.1 =
        entries.map (stepEntry acc now) := by
  induction entries with
  | nil => intro ex nw; rfl
  | cons e rest ih =>
    intro ex nw
    simp only [tickScheduled, BaseExecutor.submit_eq, List.map_cons]
    cases hd : (e.is_due now).1 <;> cases ha : acc e.call <;>
      simp [stepEntry, hd, ha, ih]

theorem tickScheduled_calls (acc : SubmitCall → Bool) (now : ℚ)
    (entries : List TaskEntry) :
    ∀ (ex : BaseExecutor) (nw : Option ℚ),
      (tickScheduled acc now ex nw entries).2.2.2 = dueCalls now entries := by
  induction entries with
  | nil => intro ex nw; rfl
  | cons e rest ih =>
    intro ex nw
    simp only [tickScheduled, BaseExecutor.submit_eq]
    cases hd : (e.is_due now).1 <;> cases ha : acc e.call <;>
      simp [dueCalls, List.filter_cons, hd, ha, ih]

theorem tickScheduled_nextWake (acc : SubmitCall → Bool) (now : ℚ)
    (entries : List TaskEntry) :
    ∀ (ex : BaseExecutor) (nw : Option ℚ),
      (tickScheduled acc now ex nw entries).2.1 =
        entries.foldl (fun a e => updateNextWake a (e.is_due now).2) nw := by
  induction entries with
  | nil => intro ex nw; rfl
  | cons e rest ih =>
    intro ex nw
    simp only [tickScheduled, BaseExecutor.submit_eq, List.foldl_cons]
    cases hd : (e.is_due now).1 <;> cases ha : acc e.call <;> simp [hd, ha, ih]

theorem drainInstant_calls (acc : SubmitCall → Bool) (q : List InstantItem) :
    ∀ ex : BaseExecutor, (drainInstant acc ex q).2 = q.map InstantItem.toCall := by
  induction q with
  | nil => intro ex; rfl
  | cons item rest ih => intro ex; simp [drainInstant, ih]

theorem tick_entries (s : Scheduler) (acc : SubmitCall → Bool) (now : ℚ) :
    (s.tick acc now).sched.scheduled_entries =
      s.scheduled_entries.map (stepEntry acc now) := by
  simp [Scheduler.tick, tickScheduled_entries]

theorem tick_calls (s : Scheduler) (acc : SubmitCall → Bool) (now : ℚ) :
    (s.tick acc now).calls =
      dueCalls now s.scheduled_entries ++ s.instant_queue.map InstantItem.toCall := by
  simp [Scheduler.tick, tickScheduled_calls, drainInstant_calls]

theorem tick_sleep_eq (s : Scheduler) (acc : SubmitCall → Bool) (now : ℚ) :
    (s.tick acc now).sleep =
      min (pyOr ((s.scheduled_entries.map fun e => (e.is_due now).2).foldl
        updateNextWake none) 1) 1 := by
  simp [Scheduler.tick, tickScheduled_nextWake, List.foldl_map]

theorem updateNextWake_some (a r : ℚ) :
    updateNextWake (some a) r = some (min a r) := by
  rcases lt_or_le r a with h | h
  · simp [updateNextWake, if_pos h, min_eq_right h.le]
  · simp [updateNextWake, if_neg (not_lt.mpr h), min_eq_left h]

theorem foldl_updateNextWake (rs : List ℚ) :
    ∀ a : ℚ, rs.foldl updateNextWake (some a) = some (rs.foldl min a) := by
  induction rs with
  | nil => intro a; rfl
  | cons r rest ih => intro a; simp [updateNextWake_some, ih]

theorem foldl_min_pos (rs : List ℚ) :
    ∀ r : ℚ, 0 < r → (∀ x ∈ rs, 0 < x) → 0 < rs.foldl min r := by
  induction rs with
  | nil => intro r h _; simpa using h
  | cons x xs ih =>
    intro r hr hall
    simp only [List.foldl_cons]
    exact ih (min r x) (lt_min hr (hall x (by simp)))
      (fun y hy => hall y (by simp [hy]))

/-- Every remaining value reported by `is_due` is strictly positive when
the entry's interval is. -/
theorem is_due_remaining_pos (e : TaskEntry) (now : ℚ)
    (h : 0 < e.schedule.interval) : 0 < (e.is_due now).2 := by
  unfold TaskEntry.is_due
  cases hl : e.last_run_at with
  | none => simpa using h
  | some last =>
    by_cases hc : last + e.schedule.interval - now ≤ 0
    · simpa [hc] using h
    · simp only [hc, if_false]
      linarith [not_le.mp hc]

/-- The sleep value returned by `tick`, for registries whose entries all
have positive intervals: 1 when the registry is empty, otherwise the
minimum remaining capped at 1. -/
theorem tick_sleep_formula (acc : SubmitCall → Bool) (now : ℚ) (s : Scheduler)
    (hpos : ∀ e ∈ s.scheduled_entries, 0 < e.schedule.interval) :
    (s.scheduled_entries = [] → (s.tick acc now).sleep = 1) ∧
    (∀ (r : ℚ) (rs : List ℚ),
      s.scheduled_entries.map (fun e => (e.is_due now).2) = r :: rs →
      (s.tick acc now).sleep = min (rs.foldl min r) 1) := by
  have hall : ∀ x ∈ s.scheduled_entries.map (fun e => (e.is_due now).2), 0 < x := by
    intro x hx
    obtain ⟨e, he, rfl⟩ := List.mem_map.mp hx
    exact is_due_remaining_pos e now (hpos e he)
  constructor
  · intro h
    rw [tick_sleep_eq, h]
    simp [pyOr]
  · intro r rs hmap
    rw [tick_sleep_eq, hmap]
    rw [hmap] at hall
    have hr : 0 < r := hall r (by simp)
    have hrs : ∀ x ∈ rs, 0 < x := fun x hx => hall x (by simp [hx])
    have hm : 0 < rs.foldl min r := foldl_min_pos rs r hr hrs
    simp only [List.foldl_cons, updateNextWake, foldl_updateNextWake]
    simp [pyOr, ne_of_gt hm]

/-! ## C4 -/

/-- C4: `tick` returns `min(minimum remaining across all entries, 1)` and
the default 1 when the registry contributes no remaining value. -/
theorem C4_tick_sleep (acc : SubmitCall → Bool) (now : ℚ) (s : Scheduler)
    (hpos : ∀ e ∈ s.scheduled_entries, 0 < e.schedule.interval) :
    (s.scheduled_entries = [] → (s.tick acc now).sleep = 1) ∧
    (∀ (r : ℚ) (rs : List ℚ),
      s.scheduled_entries.map (fun e => (e.is_due now).2) = r :: rs →
      (s.tick acc now).sleep = min (rs.foldl min r) 1) :=
  tick_sleep_formula acc now s hpos

/-- The executor has accepted everything so far and continues to. -/
def accAll : SubmitCall → Bool := fun _ => true

/-- Entry with remaining time 2/5 at `now = 2`: interval 12/5, last run 0. -/
def entryR04 : TaskEntry :=
  { id := "r04"
    task := taskT
    schedule := ⟨12/5⟩
    args := []
    kwargs := []
    last_run_at := some 0 }

/-- Entry with remaining time 3 at `now = 2`: interval 5, last run 0. -/
def entryR30 : TaskEntry :=
  { id := "r30"
    task := taskT
    schedule := ⟨5⟩
    args := []
    kwargs := []
    last_run_at := some 0 }

/-- Entry with remaining time 5 at `now = 2`: interval 7, last run 0. -/
def entryR50 : TaskEntry :=
  { id := "r50"
    task := taskT
    schedule := ⟨7⟩
    args := []
    kwargs := []
    last_run_at := some 0 }

/-- Entry with remaining time 8 at `now = 2`: interval 10, last run 0. -/
def entryR80 : TaskEntry :=
  { id := "r80"
    task := taskT
    schedule := ⟨10⟩
    args := []
    kwargs := []
    last_run_at := some 0 }

/-- Registry with remaining times 2/5 and 3 at `now = 2`. -/
def sched04 : Scheduler :=
  { executor := create_executor true none
    scheduled_entries := [entryR04, entryR30]
    instant_queue := []
    running := true }

/-- Registry with remaining times 5 and 8 at `now = 2`. -/
def sched58 : Scheduler :=
  { executor := create_executor true none
    scheduled_entries := [entryR50, entryR80]
    instant_queue := []
    running := true }

/-- C4 witness: with remaining times 0.4 and 3.0 a tick returns 0.4; with
remaining times 5.0 and 8.0 it returns the 1.0 cap. -/
theorem C4_witness :
    (sched04.tick accAll 2).sleep = 2/5 ∧ (sched58.tick accAll 2).sleep = 1 := by
  constructor
  · have h := (C4_tick_sleep accAll 2 sched04 (by
      intro e he
      simp only [sched04, List.mem_cons, List.not_mem_nil, or_false] at he
      rcases he with rfl | rfl <;> norm_num [entryR04, entryR30])).2 (2/5) [3] (by
        simp only [sched04, List.map_cons, List.map_nil]
        norm_num [TaskEntry.is_due, entryR04, entryR30])
    rw [h]
    norm_num
  · have h := (C4_tick_sleep accAll 2 sched58 (by
      intro e he
      simp only [sched58, List.mem_cons, List.not_mem_nil, or_false] at he
      rcases he with rfl | rfl <;> norm_num [entryR50, entryR80])).2 5 [8] (by
        simp only [sched58, List.map_cons, List.map_nil]
        norm_num [TaskEntry.is_due, entryR50, entryR80])
    rw [h]
    norm_num

/-! ## C5 -/

/-- C5: every registry entry is evaluated by a tick (the result registry is
a per-entry map, so a submission failure never aborts the loop); a due
entry whose submission fails keeps its `last_run_at` unchanged; `last_run_at`
is set to `now` exactly on successful submission; and the calls issued
still cover every due entry, with the instant queue drained afterwards. -/
theorem C5_submission_failure_isolated (acc : SubmitCall → Bool) (now : ℚ)
    (s : Scheduler) :
    (s.tick acc now).sched.scheduled_entries =
      s.scheduled_entries.map (stepEntry acc now) ∧
    (∀ e : TaskEntry, (e.is_due now).1 = true → acc e.call = false →
      stepEntry acc now e = e) ∧
    (∀ e : TaskEntry, (e.is_due now).1 = true → acc e.call = true →
      stepEntry acc now e = { e with last_run_at := some now }) ∧
    (∀ e : TaskEntry, (e.is_due now).1 = false → stepEntry acc now e = e) ∧
    (s.tick acc now).calls =
      dueCalls now s.scheduled_entries ++ s.instant_queue.map InstantItem.toCall := by
  refine ⟨tick_entries s acc now, fun e h1 h2 => ?_, fun e h1 h2 => ?_,
    fun e h => ?_, tick_calls s acc now⟩ <;> simp [stepEntry, *]

/-- A due entry named "a" (never dispatched). -/
def entryDueA : TaskEntry :=
  { id := "a"
    task := ⟨"a"⟩
    schedule := ⟨1⟩
    args := []
    kwargs := []
    last_run_at := none }

/-- A due entry named "b" (never dispatched). -/
def entryDueB : TaskEntry :=
  { id := "b"
    task := ⟨"b"⟩
    schedule := ⟨1⟩
    args := []
    kwargs := []
    last_run_at := none }

/-- An executor behavior that rejects task "a" and accepts task "b". -/
def accOnlyB : SubmitCall → Bool := fun c => c.fn.name == "b"

/-- Registry holding the two due entries, "a" first. -/
def schedC5 : Scheduler :=
  { executor := create_executor true none
    scheduled_entries := [entryDueA, entryDueB]
    instant_queue := []
    running := true }

/-- C5 witness: with "a" due but rejected and "b" due and accepted, the
tick still dispatches both (calls list covers both, in order), leaves
`entryDueA.last_run_at` unchanged and stamps `entryDueB` with `now`. -/
theorem C5_witness :
    (schedC5.tick accOnlyB 3).sched.scheduled_entries =
      [entryDueA, { entryDueB with last_run_at := some 3 }] ∧
    (schedC5.tick accOnlyB 3).calls = [entryDueA.call, entryDueB.call] := by
  have h := C5_submission_failure_isolated accOnlyB 3 schedC5
  constructor
  · rw [h.1]
    show [stepEntry accOnlyB 3 entryDueA, stepEntry accOnlyB 3 entryDueB] = _
    rw [h.2.1 entryDueA rfl rfl, h.2.2.1 entryDueB rfl rfl]
  · rw [h.2.2.2.2]
    rfl

/-! ## C7 -/

/-- C7: within one tick, the calls issued to the executor are exactly the
due-entry dispatches (in registry order) followed by the instant-queue
items in first-in-first-out order. -/
theorem C7_dispatch_order (s : Scheduler) (acc : SubmitCall → Bool) (now : ℚ) :
    (s.tick acc now).calls =
      dueCalls now s.scheduled_entries ++ s.instant_queue.map InstantItem.toCall :=
  tick_calls s acc now

/-! ## C10 -/

/-- C10: when every registered entry has a strictly positive interval, the
sleep duration returned by `tick` is strictly positive and at most 1, so
the run loop never busy-spins. -/
theorem C10_no_busy_spin (acc : SubmitCall → Bool) (now : ℚ) (s : Scheduler)
    (hpos : ∀ e ∈ s.scheduled_entries, 0 < e.schedule.interval) :
    0 < (s.tick acc now).sleep ∧ (s.tick acc now).sleep ≤ 1 := by
  have h := tick_sleep_formula acc now s hpos
  cases hmap : s.scheduled_entries.map (fun e => (e.is_due now).2) with
  | nil =>
    have hnil : s.scheduled_entries = [] := List.map_eq_nil_iff.mp hmap
    rw [h.1 hnil]
    norm_num
  | cons r rs =>
    rw [h.2 r rs hmap]
    have hall : ∀ x ∈ s.scheduled_entries.map (fun e => (e.is_due now).2), 0 < x := by
      intro x hx
      obtain ⟨e, he, rfl⟩ := List.mem_map.mp hx
      exact is_due_remaining_pos e now (hpos e he)
    rw [hmap] at hall
    have hm : 0 < rs.foldl min r :=
      foldl_min_pos rs r (hall r (by simp)) (fun x hx => hall x (by simp [hx]))
    exact ⟨lt_min hm one_pos, min_le_right _ _⟩

/-- C10 witness: on the concrete registry with remaining times 2/5 and 3,
the sleep is strictly positive and at most 1. -/
theorem C10_witness :
    0 < (sched04.tick accAll 2).sleep ∧ (sched04.tick accAll 2).sleep ≤ 1 :=
  C10_no_busy_spin accAll 2 sched04 (by
    intro e he
    simp only [sched04, List.mem_cons, List.not_mem_nil, or_false] at he
    rcases he with rfl | rfl <;> norm_num [entryR04, entryR30])

/-! ## C8 -/

theorem ensure_scheduler_initialized_some (a : ChewyTask) (s0 : Scheduler)
    (tm : Bool) (h : a.scheduler = some s0) :
    a.ensure_scheduler_initialized tm = a := by
  simp [ChewyTask.ensure_scheduler_initialized, h]

/-- C8: `submit_instant_task` submits directly to the executor, returning
its result synchronously, and leaves the instant queue (and the registry)
unchanged; `ChewyTask.submit_task` — the only public submission path —
forwards to it without touching any queue. -/
theorem C8_instant_bypasses_queue (s : Scheduler) (ok : Bool) (task : Task)
    (args : List String) (kwargs : List (String × String)) :
    (s.submit_instant_task ok task args kwargs).1.instant_queue = s.instant_queue ∧
    (s.submit_instant_task ok task args kwargs).1.scheduled_entries = s.scheduled_entries ∧
    (s.submit_instant_task ok task args kwargs).2 =
      (s.executor.submit ok ⟨task, args, kwargs⟩).2 ∧
    (ok = true →
      (s.submit_instant_task ok task args kwargs).2 = .ok ⟨⟨task, args, kwargs⟩⟩) ∧
    (∀ (a : ChewyTask) (s0 : Scheduler), a.scheduler = some s0 →
      (a.submit_task ok task args kwargs).1.scheduler =
        some (s0.submit_instant_task ok task args kwargs).1 ∧
      (a.submit_task ok task args kwargs).2 =
        (s0.submit_instant_task ok task args kwargs).2) := by
  refine ⟨rfl, rfl, rfl, fun h => ?_, fun a s0 h => ?_⟩
  · subst h
    simp [Scheduler.submit_instant_task, BaseExecutor.submit_eq]
  · have he := ensure_scheduler_initialized_some a s0 true h
    constructor <;> simp [ChewyTask.submit_task, he, h]

/-- An application whose scheduler is the (non-running) `schedC2`. -/
def appC8 : ChewyTask :=
  { max_workers := none
    task_timeout := none
    scheduler := some schedC2
    started := true }

/-- C8 witness: the queue is untouched by a direct instant submission, and
`submit_task` on a concrete application returns exactly the scheduler-level
result. -/
theorem C8_witness :
    (schedC2.submit_instant_task true taskT [] []).1.instant_queue =
      schedC2.instant_queue ∧
    (schedC2.submit_instant_task true taskT [] []).2 = .ok ⟨⟨taskT, [], []⟩⟩ ∧
    (appC8.submit_task true taskT [] []).2 =
      (schedC2.submit_instant_task true taskT [] []).2 := by
  have h := C8_instant_bypasses_queue schedC2 true taskT [] []
  exact ⟨h.1, h.2.2.2.1 rfl, (h.2.2.2.2 appC8 schedC2 rfl).2⟩

/-! ## C9 -/

/-- C9: `delay` on a task with no `app` back-reference raises the
unbound-task `RuntimeError`; on a bound task it forwards the submission to
the owning application's `submit_task`. -/
theorem C9_delay_unbound_or_forward (t : BoundTask) (ok : Bool)
    (args : List String) (kwargs : List (String × String)) :
    (t.app = none →
      t.delay ok args kwargs =
        .error "Task is not bound to any ChewyTask application") ∧
    (∀ a : ChewyTask, t.app = some a →
      t.delay ok args kwargs =
        match (a.submit_task ok t.task args kwargs).2 with
        | .ok f => .ok ((a.submit_task ok t.task args kwargs).1, f)
        | .error msg => .error msg) := by
  constructor
  · intro h
    simp [BoundTask.delay, h]
  · intro a h
    simp only [BoundTask.delay, h]

/-- A task with no application back-reference. -/
def taskUnbound : BoundTask := ⟨taskT, none⟩

/-- A task bound to `appC8`. -/
def taskBound : BoundTask := ⟨taskT, some appC8⟩

/-- C9 witness: the unbound task's `delay` raises; the bound task's `delay`
yields the owning application's submission result. -/
theorem C9_witness :
    taskUnbound.delay true [] [] =
      .error "Task is not bound to any ChewyTask application" ∧
    taskBound.delay true [] [] =
      .ok ((appC8.submit_task true taskT [] []).1, ⟨⟨taskT, [], []⟩⟩) := by
  constructor
  · exact (C9_delay_unbound_or_forward taskUnbound true [] []).1 rfl
  · rw [(C9_delay_unbound_or_forward taskBound true [] []).2 appC8 rfl]
    rfl

end Chewy
